import Mathlib

/-!
Verification of the RAG document question-answering core.

This file embeds the core of the backend (configuration management,
text splitter, document ingestion pipeline, in-memory vector store
manager, and QA engine post-processing) as executable Lean definitions
and proves the specified behavioral properties about them.

Numeric values of the TypeScript source (which are IEEE doubles used
only through order comparisons, addition, division by small constants,
and min/max) are modelled as rationals, where all the involved
operations are exact.  Fallible operations (which `throw` in the
source) return `Except String`.  External collaborators (the embedding
backend, the file loader, the LangChain recursive splitter and the
similarity ranking of the in-memory store) appear as explicit function
or result parameters.
-/

namespace RagQA

/-- Metadata record attached to a LangChain `Document`.  Every field is
optional, mirroring the untyped `Record<string, any>` of the source. -/
structure Metadata where
  documentId : Option String := none
  filename : Option String := none
  fileType : Option String := none
  fileSize : Option Nat := none
  pageCount : Option Nat := none
  chunkIndex : Option Nat := none
  totalChunks : Option Nat := none
  score : Option ℚ := none
  deriving Repr, DecidableEq

/-- LangChain `Document`: page content plus metadata. -/
structure Doc where
  pageContent : String
  metadata : Metadata
  deriving Repr, DecidableEq

/-- JavaScript truthiness of an optional string field: `undefined`,
`null` and the empty string are falsy. -/
def truthyId : Option String → Bool
  | some s => s ≠ ""
  | none => false

/-- JavaScript `String.prototype.trim`: strip leading and trailing
whitespace (modelled structurally on the character list so that it is
kernel-computable). -/
def jsTrim (s : String) : String :=
  ⟨((s.data.dropWhile Char.isWhitespace).reverse.dropWhile Char.isWhitespace).reverse⟩

/-- Vector store backend selector (`types.ts`, `vectorStoreType`). -/
inductive StoreType
  | memory
  | chroma
  deriving Repr, DecidableEq

/-- RAG configuration record (`types.ts`, `RAGConfig`). -/
structure RAGConfig where
  chunkSize : ℚ
  chunkOverlap : ℚ
  embeddingModel : String
  vectorStoreType : StoreType
  vectorStorePath : Option String := none
  llmModel : String
  llmTemperature : ℚ
  llmMaxTokens : ℚ
  topK : ℚ
  scoreThreshold : ℚ
  deriving Repr, DecidableEq

/-- Partial configuration update (`Partial<RAGConfig>` in the source):
every field optional; absent fields keep the current value. -/
structure PartialRAGConfig where
  chunkSize : Option ℚ := none
  chunkOverlap : Option ℚ := none
  embeddingModel : Option String := none
  vectorStoreType : Option StoreType := none
  vectorStorePath : Option (Option String) := none
  llmModel : Option String := none
  llmTemperature : Option ℚ := none
  llmMaxTokens : Option ℚ := none
  topK : Option ℚ := none
  scoreThreshold : Option ℚ := none
  deriving Repr, DecidableEq

/-- Default configuration (`config.ts`, `DEFAULT_CONFIG`). -/
def DEFAULT_CONFIG : RAGConfig where
  chunkSize := 1000
  chunkOverlap := 200
  embeddingModel := "text-embedding-ada-002"
  vectorStoreType := .memory
  vectorStorePath := some "./data/vectorstore"
  llmModel := "gpt-3.5-turbo"
  llmTemperature := 0
  llmMaxTokens := 500
  topK := 4
  scoreThreshold := 7/10

/-- Spread merge `{ ...currentConfig, ...updates }` of `updateConfig`. -/
def mergeConfig (current : RAGConfig) (updates : PartialRAGConfig) : RAGConfig where
  chunkSize := updates.chunkSize.getD current.chunkSize
  chunkOverlap := updates.chunkOverlap.getD current.chunkOverlap
  embeddingModel := updates.embeddingModel.getD current.embeddingModel
  vectorStoreType := updates.vectorStoreType.getD current.vectorStoreType
  vectorStorePath := updates.vectorStorePath.getD current.vectorStorePath
  llmModel := updates.llmModel.getD current.llmModel
  llmTemperature := updates.llmTemperature.getD current.llmTemperature
  llmMaxTokens := updates.llmMaxTokens.getD current.llmMaxTokens
  topK := updates.topK.getD current.topK
  scoreThreshold := updates.scoreThreshold.getD current.scoreThreshold

/-- Runtime configuration update (`config.ts`, `updateConfig`): merge
the partial update over the current configuration, validate, and
either fail with a `ConfigurationError` message (leaving the stored
instance untouched) or return the new configuration, which the source
then installs as the global instance. -/
def updateConfig (current : RAGConfig) (updates : PartialRAGConfig) :
    Except String RAGConfig :=
  let newConfig := mergeConfig current updates
  if newConfig.chunkOverlap ≥ newConfig.chunkSize then
    .error ("Chunk overlap (" ++ toString newConfig.chunkOverlap ++
      ") must be less than chunk size (" ++ toString newConfig.chunkSize ++ ")")
  else if newConfig.chunkSize < 100 ∨ newConfig.chunkSize > 10000 then
    .error ("Chunk size must be between 100 and 10000, got " ++
      toString newConfig.chunkSize)
  else if newConfig.topK < 1 ∨ newConfig.topK > 20 then
    .error ("topK must be between 1 and 20, got " ++ toString newConfig.topK)
  else if newConfig.llmTemperature < 0 ∨ newConfig.llmTemperature > 2 then
    .error ("LLM temperature must be between 0 and 2, got " ++
      toString newConfig.llmTemperature)
  else if newConfig.scoreThreshold < 0 ∨ newConfig.scoreThreshold > 1 then
    .error ("Score threshold must be between 0 and 1, got " ++
      toString newConfig.scoreThreshold)
  else
    .ok newConfig

/-- The global `configInstance` after a call of `updateConfig`: replaced
on success (the assignment runs after all validation), untouched when a
validation error was thrown. -/
def configAfterUpdate (current : RAGConfig) (updates : PartialRAGConfig) : RAGConfig :=
  match updateConfig current updates with
  | .ok c => c
  | .error _ => current

/-- The conjunction of the range checks `updateConfig` performs on the
merged configuration. -/
def validUpdatedConfig (c : RAGConfig) : Prop :=
  c.chunkOverlap < c.chunkSize ∧
  100 ≤ c.chunkSize ∧ c.chunkSize ≤ 10000 ∧
  1 ≤ c.topK ∧ c.topK ≤ 20 ∧
  0 ≤ c.llmTemperature ∧ c.llmTemperature ≤ 2 ∧
  0 ≤ c.scoreThreshold ∧ c.scoreThreshold ≤ 1

instance (c : RAGConfig) : Decidable (validUpdatedConfig c) := by
  unfold validUpdatedConfig; infer_instance

/-- Chunking configuration validation (`textSplitter.ts`,
`validateSplittingConfig`). -/
def validateSplittingConfig (config : RAGConfig) : Except String Unit :=
  if config.chunkSize ≤ 0 then
    .error ("Invalid chunk size: " ++ toString config.chunkSize ++
      ". Must be greater than 0.")
  else if config.chunkOverlap < 0 then
    .error ("Invalid chunk overlap: " ++ toString config.chunkOverlap ++
      ". Must be non-negative.")
  else if config.chunkOverlap ≥ config.chunkSize then
    .error ("Chunk overlap (" ++ toString config.chunkOverlap ++
      ") must be less than chunk size (" ++ toString config.chunkSize ++ ")")
  else
    .ok ()

/-- Text splitting (`textSplitter.ts`, `splitText`).  The long-document
branch delegates to LangChain's `RecursiveCharacterTextSplitter`, an
external library collaborator; it is abstracted as the `longSplit`
function parameter producing the piece contents, to which the source
then attaches the caller metadata plus `chunkIndex`/`totalChunks`. -/
def splitText (longSplit : String → List String) (text : String)
    (config : RAGConfig) (metadata : Metadata) : Except String (List Doc) :=
  if (jsTrim text).length = 0 then
    .error "Cannot split empty document"
  else
    let trimmedText := jsTrim text
    if (trimmedText.length : ℚ) ≤ config.chunkSize then
      .ok [⟨trimmedText, { metadata with chunkIndex := some 0, totalChunks := some 1 }⟩]
    else
      let pieces := longSplit trimmedText
      .ok (pieces.enum.map (fun p =>
        ⟨p.2, { metadata with chunkIndex := some p.1, totalChunks := some pieces.length }⟩))

/-- Ingestion lifecycle state for one document
(`vectorStore.service.ts`, interface `IngestionState`). -/
inductive IngestStatus
  | processing
  | completed
  | failed
  deriving Repr, DecidableEq

/-- Per-document tracking entry of the ingestion service. -/
structure IngestionState where
  documentId : String
  status : IngestStatus
  progress : Nat
  error : Option String := none
  chunks : Option (List Doc) := none
  deriving Repr, DecidableEq

/-- Result record returned by `ingestDocument` (`types.ts`, `IngestResult`). -/
structure IngestResult where
  success : Bool
  documentId : String
  chunkCount : Nat
  error : Option String := none
  deriving Repr, DecidableEq

/-- Output of the external document loader (`documentLoaders.ts`,
`loadDocument`): extracted plain text plus file metadata. -/
structure LoadedDoc where
  content : String
  filename : String
  fileType : String
  fileSize : Nat
  pageCount : Option Nat := none
  deriving Repr, DecidableEq

/-- Failure outcome of `ingestDocument`: the catch block records state
`failed` at progress 0 with the error message and returns a
`success=false` result instead of rethrowing. -/
def ingestFailure (documentId : String) (e : String) : IngestResult × IngestionState :=
  ({ success := false, documentId := documentId, chunkCount := 0, error := some e },
   { documentId := documentId, status := .failed, progress := 0, error := some e })

/-- Document ingestion (`vectorStore.service.ts`,
`DocumentIngestionService.ingestDocument`).  The file-system
collaborators `validateFile` and `loadDocument` are I/O; their outcomes
enter as the `Except`-valued parameters `validateFileResult` and
`loadResult`.  Returns the `IngestResult` together with the final
tracking state of the minted document id; the function is total — every
internal failure is converted into a `success=false` result. -/
def ingestDocument (documentId : String) (validateFileResult : Except String Unit)
    (loadResult : Except String LoadedDoc) (config : RAGConfig)
    (longSplit : String → List String) : IngestResult × IngestionState :=
  match validateFileResult with
  | .error e => ingestFailure documentId e
  | .ok _ =>
    match validateSplittingConfig config with
    | .error e => ingestFailure documentId e
    | .ok _ =>
      match loadResult with
      | .error e => ingestFailure documentId e
      | .ok loaded =>
        match splitText longSplit loaded.content config
            { documentId := some documentId, filename := some loaded.filename,
              fileType := some loaded.fileType, fileSize := some loaded.fileSize,
              pageCount := loaded.pageCount } with
        | .error e => ingestFailure documentId e
        | .ok chunks =>
          ({ success := true, documentId := documentId, chunkCount := chunks.length },
           { documentId := documentId, status := .completed, progress := 100,
             chunks := some chunks })

/-- Registry entries: the `Map<string, string[]>` from `documentId` to
synthetic chunk ids, modelled as an association list with the key order
of insertion (keys stay unique under the operations below). -/
abbrev Registry := List (String × List String)

/-- Lookup in the registry (`Map.get`): value of the first entry with
the given key. -/
def regLookup (reg : Registry) (d : String) : Option (List String) :=
  match reg.find? (fun p => p.1 = d) with
  | some p => some p.2
  | none => none

/-- Append a chunk id to a document's entry, creating the entry when
absent (the `Map.set`-if-missing-then-`push` pattern of `addDocuments`). -/
def regAppend (reg : Registry) (d : String) (cid : String) : Registry :=
  match reg with
  | [] => [(d, [cid])]
  | (k, v) :: rest =>
    if k = d then (k, v ++ [cid]) :: rest else (k, v) :: regAppend rest d cid

/-- Delete a document's entry (`Map.delete`). -/
def regErase (reg : Registry) (d : String) : Registry :=
  reg.filter (fun p => p.1 ≠ d)

/-- State of a `VectorStoreManager`: the `MemoryVectorStore` (null until
lazily initialized; its embedding vectors are irrelevant to the claims,
so it is the list of stored documents) plus the document registry. -/
structure VectorStoreManager where
  vectorStore : Option (List Doc)
  documentRegistry : Registry
  deriving Repr, DecidableEq

/-- Documents currently held by the underlying store (empty when the
store has not been initialized yet). -/
def storeDocs (mgr : VectorStoreManager) : List Doc :=
  mgr.vectorStore.getD []

/-- Lazy store initialization (`initializeStore`): creates an empty
`MemoryVectorStore` if none exists, otherwise leaves it alone. -/
def initializeStore (mgr : VectorStoreManager) : VectorStoreManager :=
  match mgr.vectorStore with
  | some _ => mgr
  | none => { mgr with vectorStore := some [] }

/-- One iteration of the `documents.forEach` loop of `addDocuments`:
mint the synthetic chunk id, always push it onto the returned id list,
and record it in the registry only when the chunk's `documentId`
metadata is truthy.  (A missing `documentId` renders as the string
"undefined" inside the template literal.) -/
def addStep (now : Nat) (acc : List String × Registry) (p : Nat × Doc) :
    List String × Registry :=
  let chunkId := (p.2.metadata.documentId.getD "undefined") ++ "_chunk_" ++
    toString p.1 ++ "_" ++ toString now
  (acc.1 ++ [chunkId],
    match p.2.metadata.documentId with
    | some s => if s = "" then acc.2 else regAppend acc.2 s chunkId
    | none => acc.2)

/-- Add a batch of chunks (`VectorStoreManager.addDocuments`): lazily
initialize, return `[]` for an empty batch, otherwise append all the
documents to the store, mint one chunk id per document (indexed by
position in the batch and the `Date.now()` timestamp `now`), and track
the truthy document ids in the registry. -/
def addDocuments (now : Nat) (documents : List Doc) (mgr : VectorStoreManager) :
    List String × VectorStoreManager :=
  let mgr1 := initializeStore mgr
  if documents.length = 0 then
    ([], mgr1)
  else
    let acc := documents.enum.foldl (addStep now) ([], mgr1.documentRegistry)
    (acc.1, { vectorStore := some (storeDocs mgr1 ++ documents),
              documentRegistry := acc.2 })

/-- Delete a document and its chunks
(`VectorStoreManager.deleteDocument`).  `rank` abstracts the similarity
ordering of the raw `MemoryVectorStore.similaritySearch`: a search for
`q` with limit `n` returns `(rank q docs).take n`.  The source empties
and rebuilds the store from a full scan capped at 10000 results,
keeping only chunks of other documents. -/
def deleteDocument (rank : String → List Doc → List Doc)
    (mgr : VectorStoreManager) (documentId : String) :
    Except String (Bool × VectorStoreManager) :=
  let mgr1 := initializeStore mgr
  if jsTrim documentId = "" then
    .error "Document ID cannot be empty"
  else
    match regLookup mgr1.documentRegistry documentId with
    | none => .ok (false, mgr1)
    | some chunkIds =>
      if chunkIds.length = 0 then
        .ok (false, mgr1)
      else
        let allDocs := (rank "" (storeDocs mgr1)).take 10000
        let remainingDocs := allDocs.filter
          (fun doc => doc.metadata.documentId ≠ some documentId)
        .ok (true, { vectorStore := some remainingDocs,
                     documentRegistry := regErase mgr1.documentRegistry documentId })

/-- Registry existence test (`VectorStoreManager.hasDocument`). -/
def hasDocument (mgr : VectorStoreManager) (documentId : String) : Bool :=
  (regLookup mgr.documentRegistry documentId).isSome

/-- Chunk count for one document (`VectorStoreManager.getDocumentChunkCount`). -/
def getDocumentChunkCount (mgr : VectorStoreManager) (documentId : String) : Nat :=
  ((regLookup mgr.documentRegistry documentId).getD []).length

/-- Statistics record (`VectorStoreManager.getStoreStats`). -/
structure StoreStats where
  totalDocuments : Nat
  totalChunks : Nat
  documentIds : List String
  deriving Repr, DecidableEq

/-- Store statistics, computed purely from the registry. -/
def getStoreStats (mgr : VectorStoreManager) : StoreStats where
  totalDocuments := mgr.documentRegistry.length
  totalChunks := (mgr.documentRegistry.map (fun p => p.2.length)).sum
  documentIds := mgr.documentRegistry.map (fun p => p.1)

/-- Scoped search (`VectorStoreManager.searchWithinDocument`): validate
the arguments, return `[]` for an unregistered document, otherwise
over-fetch `k*3` candidates from a global similarity search, keep the
target document's chunks and truncate to `k`. -/
def searchWithinDocument (rank : String → List Doc → List Doc)
    (mgr : VectorStoreManager) (documentId : String) (query : String) (k : Nat) :
    Except String (List Doc × VectorStoreManager) :=
  let mgr1 := initializeStore mgr
  if jsTrim documentId = "" then
    .error "Document ID cannot be empty"
  else if jsTrim query = "" then
    .error "Query cannot be empty"
  else if ¬ hasDocument mgr1 documentId then
    .ok ([], mgr1)
  else
    let results := (rank query (storeDocs mgr1)).take (k * 3)
    .ok ((results.filter (fun doc => doc.metadata.documentId = some documentId)).take k,
      mgr1)

/-- Parameters of a `ChatOpenAI` client as the engine configures it. -/
structure LLM where
  modelName : String
  temperature : ℚ
  maxTokens : ℚ
  deriving Repr, DecidableEq

/-- A built retrieval chain.  `initializeQAChain` and
`initializeConversationalChain` bake in the retriever's `k`
(`config.topK` at build time) and capture the engine's current `llm`;
these are the only chain ingredients the claims inspect, the prompt
templates being fixed strings. -/
structure Chain where
  k : ℚ
  llm : LLM
  deriving Repr, DecidableEq

/-- Mutable fields of a `QAEngine`: the current LLM client and the two
lazily built, memoized chains. -/
structure QAEngine where
  llm : LLM
  qaChain : Option Chain := none
  conversationalChain : Option Chain := none
  deriving Repr, DecidableEq

/-- Effective per-call QA configuration (`types.ts`, `QAConfig`). -/
structure QAConfig where
  topK : ℚ
  temperature : ℚ
  maxTokens : ℚ
  deriving Repr, DecidableEq

/-- Caller-supplied partial overrides (`Partial<QAConfig>`). -/
structure QAOverrides where
  topK : Option ℚ := none
  temperature : Option ℚ := none
  maxTokens : Option ℚ := none
  deriving Repr, DecidableEq

/-- The `config?.field ?? ragConfig.field` merge at the top of
`askQuestion` and `askWithHistory`. -/
def mergeQAConfig (ragConfig : RAGConfig) (overrides : QAOverrides) : QAConfig where
  topK := overrides.topK.getD ragConfig.topK
  temperature := overrides.temperature.getD ragConfig.llmTemperature
  maxTokens := overrides.maxTokens.getD ragConfig.llmMaxTokens

/-- The engine's LLM after the "update LLM configuration if needed"
step: rebuilt from the merged configuration when a temperature or
maxTokens override is present, otherwise kept. -/
def updatedLLM (ragConfig : RAGConfig) (engine : QAEngine) (overrides : QAOverrides) :
    LLM :=
  if overrides.temperature.isSome || overrides.maxTokens.isSome then
    { modelName := ragConfig.llmModel,
      temperature := (mergeQAConfig ragConfig overrides).temperature,
      maxTokens := (mergeQAConfig ragConfig overrides).maxTokens }
  else
    engine.llm

/-- State transition of `QAEngine.askQuestion`: validate the question,
merge overrides, possibly replace `this.llm`, build the QA chain only
if absent, and invoke the (new or cached) chain.  Returns the updated
engine and the chain instance actually invoked; the answer itself comes
from the external language model and is not modelled. -/
def askQuestion (ragConfig : RAGConfig) (engine : QAEngine) (question : String)
    (overrides : QAOverrides) : Except String (QAEngine × Chain) :=
  if jsTrim question = "" then
    .error "Question cannot be empty"
  else
    let llm := updatedLLM ragConfig engine overrides
    let engine1 := { engine with llm := llm }
    match engine1.qaChain with
    | some chain => .ok (engine1, chain)
    | none =>
      let chain : Chain := { k := (mergeQAConfig ragConfig overrides).topK, llm := llm }
      .ok ({ engine1 with qaChain := some chain }, chain)

/-- State transition of `QAEngine.askWithHistory`: identical shape to
`askQuestion` but lazily building and invoking the memoized
conversational chain instead.  The chat history only feeds the prompt,
not the cached chain, so it does not appear in the state transition. -/
def askWithHistory (ragConfig : RAGConfig) (engine : QAEngine) (question : String)
    (overrides : QAOverrides) : Except String (QAEngine × Chain) :=
  if jsTrim question = "" then
    .error "Question cannot be empty"
  else
    let llm := updatedLLM ragConfig engine overrides
    let engine1 := { engine with llm := llm }
    match engine1.conversationalChain with
    | some chain => .ok (engine1, chain)
    | none =>
      let chain : Chain := { k := (mergeQAConfig ragConfig overrides).topK, llm := llm }
      .ok ({ engine1 with conversationalChain := some chain }, chain)

/-- Formatted source record (`types.ts`, `SourceDocument`). -/
structure SourceDocument where
  documentId : String
  filename : String
  content : String
  chunkIndex : Nat
  relevanceScore : ℚ
  deriving Repr, DecidableEq

/-- JavaScript `a || b` on an optional string: falls back on the
default when the value is absent or the empty string. -/
def orDefault (o : Option String) (dflt : String) : String :=
  match o with
  | some s => if s = "" then dflt else s
  | none => dflt

/-- Source formatting (`QAEngine.formatSourceDocuments`): chunk at
position `index` becomes a `SourceDocument`, with `||` defaults for
`documentId`/`filename`, `??` defaults for `chunkIndex` (the position)
and `relevanceScore` (1.0). -/
def formatSourceDocuments (documents : List Doc) : List SourceDocument :=
  documents.enum.map (fun p =>
    { documentId := orDefault p.2.metadata.documentId ("unknown_" ++ toString p.1)
      filename := orDefault p.2.metadata.filename "Unknown"
      content := p.2.pageContent
      chunkIndex := p.2.metadata.chunkIndex.getD p.1
      relevanceScore := p.2.metadata.score.getD 1 })

/-- Confidence scoring (`QAEngine.calculateConfidence`): 0 for no
sources; the clamped mean of the metadata scores when any are present;
otherwise the count-based heuristic `min(count/4, 1) * 0.8`. -/
def calculateConfidence (documents : List Doc) : ℚ :=
  if documents.length = 0 then
    0
  else
    let scores := documents.filterMap (fun doc => doc.metadata.score)
    if 0 < scores.length then
      let avgScore := scores.foldl (fun sum score => sum + score) 0 / (scores.length : ℚ)
      min 1 (max 0 avgScore)
    else
      let baseConfidence := min ((documents.length : ℚ) / 4) 1
      baseConfidence * (8/10)

/-! ## Supporting lemmas -/

theorem updateConfig_eq_ok_iff (current : RAGConfig) (updates : PartialRAGConfig) :
    updateConfig current updates = .ok (mergeConfig current updates) ↔
      validUpdatedConfig (mergeConfig current updates) := by
  simp only [updateConfig, validUpdatedConfig]
  split_ifs with h1 h2 h3 h4 h5
  · exact iff_of_false (by simp) (fun hv => absurd hv.1 (not_lt.mpr h1))
  · refine iff_of_false (by simp) (fun hv => ?_)
    exact h2.elim (fun h => absurd hv.2.1 (not_le.mpr h))
      (fun h => absurd hv.2.2.1 (not_le.mpr h))
  · refine iff_of_false (by simp) (fun hv => ?_)
    exact h3.elim (fun h => absurd hv.2.2.2.1 (not_le.mpr h))
      (fun h => absurd hv.2.2.2.2.1 (not_le.mpr h))
  · refine iff_of_false (by simp) (fun hv => ?_)
    exact h4.elim (fun h => absurd hv.2.2.2.2.2.1 (not_le.mpr h))
      (fun h => absurd hv.2.2.2.2.2.2.1 (not_le.mpr h))
  · refine iff_of_false (by simp) (fun hv => ?_)
    exact h5.elim (fun h => absurd hv.2.2.2.2.2.2.2.1 (not_le.mpr h))
      (fun h => absurd hv.2.2.2.2.2.2.2.2 (not_le.mpr h))
  · push_neg at h1 h2 h3 h4 h5
    exact iff_of_true rfl
      ⟨h1, h2.1, h2.2, h3.1, h3.2, h4.1, h4.2, h5.1, h5.2⟩

theorem updateConfig_ok_or_error (current : RAGConfig) (updates : PartialRAGConfig) :
    updateConfig current updates = .ok (mergeConfig current updates) ∨
      ∃ e, updateConfig current updates = .error e := by
  simp only [updateConfig]
  split_ifs
  all_goals first
    | (left; rfl)
    | (right; exact ⟨_, rfl⟩)

/-! ## Claim theorems -/

/-- Claim C3: a partial configuration update whose merge over the
current configuration violates `chunkOverlap < chunkSize` or any of the
validated ranges fails with a configuration error and leaves the stored
global configuration unchanged; otherwise it replaces the stored
configuration with the merge and returns it. -/
theorem updateConfig_spec (current : RAGConfig) (updates : PartialRAGConfig) :
    (validUpdatedConfig (mergeConfig current updates) →
      updateConfig current updates = .ok (mergeConfig current updates) ∧
      configAfterUpdate current updates = mergeConfig current updates) ∧
    (¬ validUpdatedConfig (mergeConfig current updates) →
      (∃ e, updateConfig current updates = .error e) ∧
      configAfterUpdate current updates = current) := by
  constructor
  · intro hv
    have hok := (updateConfig_eq_ok_iff current updates).mpr hv
    exact ⟨hok, by unfold configAfterUpdate; rw [hok]⟩
  · intro hv
    rcases updateConfig_ok_or_error current updates with hok | ⟨e, herr⟩
    · exact absurd ((updateConfig_eq_ok_iff current updates).mp hok) hv
    · exact ⟨⟨e, herr⟩, by unfold configAfterUpdate; rw [herr]⟩

/-- Witness for C3: the update `{chunkSize := 50, chunkOverlap := 100}`
of the default configuration fails and leaves the stored configuration
unchanged. -/
theorem updateConfig_spec_witness :
    (∃ e, updateConfig DEFAULT_CONFIG
      { chunkSize := some 50, chunkOverlap := some 100 } = .error e) ∧
    configAfterUpdate DEFAULT_CONFIG
      { chunkSize := some 50, chunkOverlap := some 100 } = DEFAULT_CONFIG := by
  apply (updateConfig_spec DEFAULT_CONFIG
    { chunkSize := some 50, chunkOverlap := some 100 }).2
  intro hv
  have h1 := hv.1
  norm_num [mergeConfig, DEFAULT_CONFIG] at h1

/-- Claim C5: for text that is non-empty after trimming, with trimmed
length at most `chunkSize`, `splitText` returns exactly one chunk whose
content is the trimmed text, with `chunkIndex = 0`, `totalChunks = 1`
and the caller metadata merged in. -/
theorem splitText_single_chunk (longSplit : String → List String) (text : String)
    (config : RAGConfig) (metadata : Metadata)
    (h1 : (jsTrim text).length ≠ 0)
    (h2 : ((jsTrim text).length : ℚ) ≤ config.chunkSize) :
    splitText longSplit text config metadata =
      .ok [⟨jsTrim text, { metadata with chunkIndex := some 0, totalChunks := some 1 }⟩] := by
  simp only [splitText, if_neg h1, if_pos h2]

/-- Witness for C5 at a concrete input. -/
theorem splitText_single_chunk_witness :
    splitText (fun s => [s]) "  hello world " DEFAULT_CONFIG {} =
      .ok [⟨"hello world", { chunkIndex := some 0, totalChunks := some 1 }⟩] := by
  have e1 : jsTrim "  hello world " = "hello world" := by decide
  have e2 : "hello world".length = 11 := by decide
  have h := splitText_single_chunk (fun s => [s]) "  hello world " DEFAULT_CONFIG {}
    (by rw [e1, e2]; decide)
    (by rw [e1, e2]; norm_num [DEFAULT_CONFIG])
  rw [e1] at h
  exact h

/-- Claim C2: `calculateConfidence` returns 0 on an empty retrieval
list, the clamped mean of the metadata scores when at least one
retrieved chunk carries a score, and `min(count/4, 1) * 0.8` when no
chunk carries a score. -/
theorem calculateConfidence_spec (documents : List Doc) :
    (documents = [] → calculateConfidence documents = 0) ∧
    (documents ≠ [] → documents.filterMap (fun doc => doc.metadata.score) ≠ [] →
      calculateConfidence documents =
        min 1 (max 0 ((documents.filterMap (fun doc => doc.metadata.score)).sum /
          ((documents.filterMap (fun doc => doc.metadata.score)).length : ℚ)))) ∧
    (documents ≠ [] → documents.filterMap (fun doc => doc.metadata.score) = [] →
      calculateConfidence documents = min ((documents.length : ℚ) / 4) 1 * (8/10)) := by
  refine ⟨fun h => by simp [calculateConfidence, h], fun h hs => ?_, fun h hs => ?_⟩
  · have hlen : ¬ documents.length = 0 := fun hz => h (List.length_eq_zero.mp hz)
    have hslen : 0 < (documents.filterMap (fun doc => doc.metadata.score)).length :=
      List.length_pos.mpr hs
    simp only [calculateConfidence, if_neg hlen, if_pos hslen]
    rw [← List.sum_eq_foldl]
  · have hlen : ¬ documents.length = 0 := fun hz => h (List.length_eq_zero.mp hz)
    have hslen : ¬ 0 < (documents.filterMap (fun doc => doc.metadata.score)).length := by
      rw [hs]; simp
    simp only [calculateConfidence, if_neg hlen, if_neg hslen]

/-- Witness for C2: two retrieved chunks, one carrying score 1/2. -/
theorem calculateConfidence_spec_witness :
    calculateConfidence [⟨"a", { score := some (1/2) }⟩, ⟨"b", {}⟩] =
      min 1 (max 0
        (([⟨"a", { score := some (1/2) }⟩, (⟨"b", {}⟩ : Doc)].filterMap
            (fun doc => doc.metadata.score)).sum /
          (([⟨"a", { score := some (1/2) }⟩, (⟨"b", {}⟩ : Doc)].filterMap
            (fun doc => doc.metadata.score)).length : ℚ))) :=
  (calculateConfidence_spec _).2.1 (by decide) (by decide)

/-- Claim C8: `formatSourceDocuments` maps the chunk at position `i` to
a source record with the chunk's content, `chunkIndex` defaulting to
the position, `documentId` defaulting to `unknown_{i}` when metadata
lacks one, `filename` defaulting to "Unknown", and `relevanceScore`
defaulting to 1 (never 0) when the metadata carries no score. -/
theorem formatSourceDocuments_spec (documents : List Doc) :
    (formatSourceDocuments documents).length = documents.length ∧
    (∀ (i : ℕ) (d : Doc), documents[i]? = some d →
      ∃ s : SourceDocument, (formatSourceDocuments documents)[i]? = some s ∧
        s.content = d.pageContent ∧
        s.chunkIndex = d.metadata.chunkIndex.getD i ∧
        (d.metadata.documentId = none → s.documentId = "unknown_" ++ toString i) ∧
        (∀ x, d.metadata.documentId = some x → x ≠ "" → s.documentId = x) ∧
        (d.metadata.filename = none → s.filename = "Unknown") ∧
        (d.metadata.score = none → s.relevanceScore = 1) ∧
        (∀ q, d.metadata.score = some q → s.relevanceScore = q)) := by
  constructor
  · simp [formatSourceDocuments]
  · intro i d hd
    have he : documents.enum[i]? = some (i, d) := by
      rw [List.getElem?_enum, hd]; rfl
    refine ⟨⟨orDefault d.metadata.documentId ("unknown_" ++ toString i),
        orDefault d.metadata.filename "Unknown", d.pageContent,
        d.metadata.chunkIndex.getD i, d.metadata.score.getD 1⟩,
      by simp only [formatSourceDocuments, List.getElem?_map, he, Option.map_some'],
      rfl, rfl, ?_, ?_, ?_, ?_, ?_⟩
    · intro h; simp [orDefault, h]
    · intro x hx hne; simp [orDefault, hx, hne]
    · intro h; simp [orDefault, h]
    · intro h; simp [h]
    · intro q hq; simp [hq]

/-- Witness for C8: one chunk with empty metadata gets every default. -/
theorem formatSourceDocuments_spec_witness :
    ∃ s : SourceDocument, (formatSourceDocuments [⟨"c", {}⟩])[0]? = some s ∧
      s.content = (⟨"c", {}⟩ : Doc).pageContent ∧
      s.chunkIndex = (⟨"c", {}⟩ : Doc).metadata.chunkIndex.getD 0 ∧
      ((⟨"c", {}⟩ : Doc).metadata.documentId = none →
        s.documentId = "unknown_" ++ toString 0) ∧
      (∀ x, (⟨"c", {}⟩ : Doc).metadata.documentId = some x → x ≠ "" → s.documentId = x) ∧
      ((⟨"c", {}⟩ : Doc).metadata.filename = none → s.filename = "Unknown") ∧
      ((⟨"c", {}⟩ : Doc).metadata.score = none → s.relevanceScore = 1) ∧
      (∀ q, (⟨"c", {}⟩ : Doc).metadata.score = some q → s.relevanceScore = q) :=
  (formatSourceDocuments_spec [⟨"c", {}⟩]).2 0 ⟨"c", {}⟩ rfl

/-- Claim C9: once a chain has been built, every later call of
`askQuestion` (respectively `askWithHistory`) reuses that chain
unchanged — a different `topK` override does not change the retriever's
`k`, and temperature/maxTokens overrides replace the engine's `llm`
field but leave the already-built chain, and hence the model parameters
it actually uses, untouched. -/
theorem chainReuse_spec (ragConfig : RAGConfig) (engine : QAEngine) (question : String)
    (overrides : QAOverrides) (c c2 : Chain)
    (hq : jsTrim question ≠ "")
    (h1 : engine.qaChain = some c) (h2 : engine.conversationalChain = some c2) :
    askQuestion ragConfig engine question overrides =
      .ok ({ engine with llm := updatedLLM ragConfig engine overrides }, c) ∧
    askWithHistory ragConfig engine question overrides =
      .ok ({ engine with llm := updatedLLM ragConfig engine overrides }, c2) ∧
    (∀ t, overrides.temperature = some t →
      (updatedLLM ragConfig engine overrides).temperature = t) ∧
    (∀ m, overrides.maxTokens = some m →
      (updatedLLM ragConfig engine overrides).maxTokens = m) := by
  refine ⟨?_, ?_, ?_, ?_⟩
  · simp only [askQuestion, if_neg hq, h1]
  · simp only [askWithHistory, if_neg hq, h2]
  · intro t ht
    simp [updatedLLM, mergeQAConfig, ht]
  · intro m hm
    simp [updatedLLM, mergeQAConfig, hm]

/-- Witness for C9: an engine with both chains built, a temperature
override, and a topK override. -/
theorem chainReuse_spec_witness :
    askQuestion DEFAULT_CONFIG ⟨⟨"gpt-3.5-turbo", 0, 500⟩, some ⟨4, ⟨"gpt-3.5-turbo", 0, 500⟩⟩,
        some ⟨4, ⟨"gpt-3.5-turbo", 0, 500⟩⟩⟩ "q" { topK := some 9, temperature := some 1 } =
      .ok ({ (⟨⟨"gpt-3.5-turbo", 0, 500⟩, some ⟨4, ⟨"gpt-3.5-turbo", 0, 500⟩⟩,
          some ⟨4, ⟨"gpt-3.5-turbo", 0, 500⟩⟩⟩ : QAEngine) with
            llm := updatedLLM DEFAULT_CONFIG ⟨⟨"gpt-3.5-turbo", 0, 500⟩,
              some ⟨4, ⟨"gpt-3.5-turbo", 0, 500⟩⟩, some ⟨4, ⟨"gpt-3.5-turbo", 0, 500⟩⟩⟩
              { topK := some 9, temperature := some 1 } },
        ⟨4, ⟨"gpt-3.5-turbo", 0, 500⟩⟩) ∧
    (updatedLLM DEFAULT_CONFIG ⟨⟨"gpt-3.5-turbo", 0, 500⟩, some ⟨4, ⟨"gpt-3.5-turbo", 0, 500⟩⟩,
        some ⟨4, ⟨"gpt-3.5-turbo", 0, 500⟩⟩⟩
      { topK := some 9, temperature := some 1 }).temperature = 1 := by
  have h := chainReuse_spec DEFAULT_CONFIG
    ⟨⟨"gpt-3.5-turbo", 0, 500⟩, some ⟨4, ⟨"gpt-3.5-turbo", 0, 500⟩⟩,
      some ⟨4, ⟨"gpt-3.5-turbo", 0, 500⟩⟩⟩ "q" { topK := some 9, temperature := some 1 }
    ⟨4, ⟨"gpt-3.5-turbo", 0, 500⟩⟩ ⟨4, ⟨"gpt-3.5-turbo", 0, 500⟩⟩ (by decide) rfl rfl
  exact ⟨h.1, h.2.2.1 1 rfl⟩

/-- Claim C4: `ingestDocument` always returns an `IngestResult` (it is
a total function of the outcomes of its collaborators, never
propagating a failure): on any validation, loading or chunking failure
it returns `success = false` with `chunkCount = 0` and the error
message, recording the document state as `failed`; on success it
returns `success = true` with `chunkCount` equal to the number of
chunks produced and records state `completed` at progress 100. -/
theorem ingestDocument_spec (documentId : String) (vres : Except String Unit)
    (lres : Except String LoadedDoc) (config : RAGConfig)
    (longSplit : String → List String) :
    ((ingestDocument documentId vres lres config longSplit).1.documentId = documentId) ∧
    (((ingestDocument documentId vres lres config longSplit).1.success = false ∧
        (ingestDocument documentId vres lres config longSplit).1.chunkCount = 0 ∧
        (ingestDocument documentId vres lres config longSplit).1.error.isSome = true ∧
        (ingestDocument documentId vres lres config longSplit).2.status = .failed) ∨
      ((ingestDocument documentId vres lres config longSplit).1.success = true ∧
        (ingestDocument documentId vres lres config longSplit).1.error = none ∧
        (ingestDocument documentId vres lres config longSplit).2.status = .completed ∧
        (ingestDocument documentId vres lres config longSplit).2.progress = 100 ∧
        ∃ chunks : List Doc,
          (ingestDocument documentId vres lres config longSplit).2.chunks = some chunks ∧
          (ingestDocument documentId vres lres config longSplit).1.chunkCount =
            chunks.length)) ∧
    ((ingestDocument documentId vres lres config longSplit).1.success = true ↔
      ∃ (loaded : LoadedDoc) (chunks : List Doc), vres = .ok () ∧
        validateSplittingConfig config = .ok () ∧ lres = .ok loaded ∧
        splitText longSplit loaded.content config
          { documentId := some documentId, filename := some loaded.filename,
            fileType := some loaded.fileType, fileSize := some loaded.fileSize,
            pageCount := loaded.pageCount } = .ok chunks) := by
  cases vres with
  | error e => simp [ingestDocument, ingestFailure]
  | ok u =>
    cases u
    cases hv : validateSplittingConfig config with
    | error e => simp [ingestDocument, ingestFailure, hv]
    | ok u2 =>
      cases u2
      cases lres with
      | error e => simp [ingestDocument, ingestFailure, hv]
      | ok loaded =>
        cases hs : splitText longSplit loaded.content config
            { documentId := some documentId, filename := some loaded.filename,
              fileType := some loaded.fileType, fileSize := some loaded.fileSize,
              pageCount := loaded.pageCount } with
        | error e => simp [ingestDocument, ingestFailure, hv, hs]
        | ok chunks => simp [ingestDocument, ingestFailure, hv, hs]

/-- Witness for C4: a failing validation produces a caught failure
result; a fully successful run produces a completed result. -/
theorem ingestDocument_spec_witness :
    ((ingestDocument "doc1" (.error "bad file") (.ok ⟨"text", "f.txt", "txt", 4, none⟩)
        DEFAULT_CONFIG (fun s => [s])).1.success = false ∧
      (ingestDocument "doc1" (.error "bad file") (.ok ⟨"text", "f.txt", "txt", 4, none⟩)
        DEFAULT_CONFIG (fun s => [s])).2.status = .failed) ∧
    (ingestDocument "doc2" (.ok ()) (.ok ⟨"text", "f.txt", "txt", 4, none⟩)
        DEFAULT_CONFIG (fun s => [s])).1.success = true := by
  constructor
  · have h := ingestDocument_spec "doc1" (.error "bad file")
      (.ok ⟨"text", "f.txt", "txt", 4, none⟩) DEFAULT_CONFIG (fun s => [s])
    rcases h.2.1 with ⟨hs, _, _, hst⟩ | ⟨hs, _⟩
    · exact ⟨hs, hst⟩
    · exfalso
      obtain ⟨l, ch, hok, _⟩ := h.2.2.mp hs
      exact Except.noConfusion hok
  · have h := ingestDocument_spec "doc2" (.ok ())
      (.ok ⟨"text", "f.txt", "txt", 4, none⟩) DEFAULT_CONFIG (fun s => [s])
    apply h.2.2.mpr
    refine ⟨⟨"text", "f.txt", "txt", 4, none⟩,
      [⟨jsTrim "text", ⟨some "doc2", some "f.txt", some "txt", some 4, none,
        some 0, some 1, none⟩⟩], rfl, ?_, rfl, ?_⟩
    · simp only [validateSplittingConfig, DEFAULT_CONFIG]
      rw [if_neg (by norm_num), if_neg (by norm_num), if_neg (by norm_num)]
    · have hc : ((jsTrim "text").length : ℚ) ≤ DEFAULT_CONFIG.chunkSize := by
        rw [show (jsTrim "text").length = 4 from by decide]
        norm_num [DEFAULT_CONFIG]
      simp only [splitText, if_neg (by decide : ¬ (jsTrim "text").length = 0), if_pos hc]

theorem initializeStore_registry (mgr : VectorStoreManager) :
    (initializeStore mgr).documentRegistry = mgr.documentRegistry := by
  unfold initializeStore
  cases mgr.vectorStore <;> rfl

theorem initializeStore_storeDocs (mgr : VectorStoreManager) :
    storeDocs (initializeStore mgr) = storeDocs mgr := by
  unfold initializeStore storeDocs
  cases hv : mgr.vectorStore <;> simp [hv]

theorem regLookup_regAppend_self (reg : Registry) (d cid : String) :
    regLookup (regAppend reg d cid) d = some (((regLookup reg d).getD []) ++ [cid]) := by
  induction reg with
  | nil => simp [regAppend, regLookup]
  | cons p rest ih =>
    obtain ⟨k, v⟩ := p
    by_cases hk : k = d
    · subst hk
      simp [regAppend, regLookup]
    · simp only [regAppend, if_neg hk]
      simpa [regLookup, List.find?_cons, hk] using ih

theorem regLookup_regAppend_ne (reg : Registry) (d d' cid : String) (h : d' ≠ d) :
    regLookup (regAppend reg d cid) d' = regLookup reg d' := by
  induction reg with
  | nil => simp [regAppend, regLookup, Ne.symm h]
  | cons p rest ih =>
    obtain ⟨k, v⟩ := p
    by_cases hk : k = d
    · subst hk
      simp [regAppend, regLookup, List.find?_cons, Ne.symm h]
    · simp only [regAppend, if_neg hk]
      by_cases hk' : k = d'
      · subst hk'
        simp [regLookup, List.find?_cons]
      · simpa [regLookup, List.find?_cons, hk'] using ih

theorem regLookup_regErase_self (reg : Registry) (d : String) :
    regLookup (regErase reg d) d = none := by
  unfold regLookup regErase
  have h : List.find? (fun p => decide (p.1 = d))
      (List.filter (fun p => decide (p.1 ≠ d)) reg) = none := by
    rw [List.find?_eq_none]
    intro p hp
    have := (List.mem_filter.mp hp).2
    simpa using this
  rw [h]

theorem foldl_addStep_ids_length (now : ℕ) (l : List (ℕ × Doc)) :
    ∀ (ids : List String) (reg : Registry),
      ((l.foldl (addStep now) (ids, reg)).1).length = ids.length + l.length := by
  induction l with
  | nil => intro ids reg; simp
  | cons p rest ih =>
    intro ids reg
    rw [List.foldl_cons,
      show addStep now (ids, reg) p = ((addStep now (ids, reg) p).1, (addStep now (ids, reg) p).2)
        from rfl, ih]
    simp [addStep]
    omega

theorem foldl_addStep_count (now : ℕ) (d : String) (hd : d ≠ "") (l : List (ℕ × Doc)) :
    ∀ (ids : List String) (reg : Registry),
      ((regLookup (l.foldl (addStep now) (ids, reg)).2 d).getD []).length =
        ((regLookup reg d).getD []).length +
          (l.filter (fun p => p.2.metadata.documentId = some d)).length := by
  induction l with
  | nil => intro ids reg; simp
  | cons p rest ih =>
    intro ids reg
    rw [List.foldl_cons,
      show addStep now (ids, reg) p = ((addStep now (ids, reg) p).1, (addStep now (ids, reg) p).2)
        from rfl, ih, List.filter_cons]
    cases hdoc : p.2.metadata.documentId with
    | none => simp [addStep, hdoc]
    | some s =>
      by_cases hs : s = ""
      · subst hs
        have hne : ¬ ((some "" : Option String) = some d) := by
          simpa using Ne.symm hd
        simp [addStep, hdoc, hne]
      · by_cases hsd : s = d
        · subst hsd
          simp only [addStep, hdoc, if_neg hs]
          rw [regLookup_regAppend_self]
          simp
          omega
        · have hne : ¬ ((some s : Option String) = some d) := by simpa using hsd
          simp only [addStep, hdoc, if_neg hs]
          rw [regLookup_regAppend_ne _ _ _ _ (Ne.symm hsd)]
          simp [hne]

theorem foldl_addStep_reg_untracked (now : ℕ) (l : List (ℕ × Doc)) :
    ∀ (ids : List String) (reg : Registry),
      (∀ p ∈ l, truthyId p.2.metadata.documentId = false) →
      (l.foldl (addStep now) (ids, reg)).2 = reg := by
  induction l with
  | nil => intro ids reg _; rfl
  | cons p rest ih =>
    intro ids reg hall
    rw [List.foldl_cons]
    have hp := hall p (List.mem_cons_self _ _)
    have hrest : ∀ p ∈ rest, truthyId p.2.metadata.documentId = false :=
      fun p hp => hall p (List.mem_cons_of_mem _ hp)
    cases hdoc : p.2.metadata.documentId with
    | none =>
      rw [show addStep now (ids, reg) p
          = (ids ++ [(p.2.metadata.documentId.getD "undefined") ++ "_chunk_" ++
              toString p.1 ++ "_" ++ toString now], reg) from by
        simp [addStep, hdoc]]
      exact ih _ _ hrest
    | some s =>
      have hs : s = "" := by
        by_contra hs
        rw [hdoc] at hp
        simp [truthyId, hs] at hp
      subst hs
      rw [show addStep now (ids, reg) p
          = (ids ++ [(p.2.metadata.documentId.getD "undefined") ++ "_chunk_" ++
              toString p.1 ++ "_" ++ toString now], reg) from by
        simp [addStep, hdoc]]
      exact ih _ _ hrest

theorem snd_mem_of_mem_enumFrom {α : Type} {l : List α} :
    ∀ {n : ℕ} {p : ℕ × α}, p ∈ List.enumFrom n l → p.2 ∈ l := by
  induction l with
  | nil => intro n p h; simp [List.enumFrom] at h
  | cons a t ih =>
    intro n p h
    rcases List.mem_cons.mp h with h | h
    · subst h; exact List.mem_cons_self _ _
    · exact List.mem_cons_of_mem _ (ih h)

theorem length_filter_enumFrom_docId (d : String) (l : List Doc) :
    ∀ (n : ℕ),
      ((List.enumFrom n l).filter (fun p => p.2.metadata.documentId = some d)).length =
        (l.filter (fun c => c.metadata.documentId = some d)).length := by
  induction l with
  | nil => intro n; rfl
  | cons a t ih =>
    intro n
    simp only [List.enumFrom, List.filter_cons]
    cases hq : decide (a.metadata.documentId = some d) <;> simp [hq, ih]

/-- Claim C6 (amended: quantification restricted to non-empty document
ids, since a chunk carrying the falsy id "" is never registered):
`addDocuments []` returns `[]` and changes neither the store contents
nor the registry; `addDocuments` returns one minted id per chunk of the
batch; and for every non-empty document id `d` the registered chunk
count grows by exactly the number of chunks of the batch whose
`metadata.documentId` is `d`. -/
theorem addDocuments_spec (mgr : VectorStoreManager) (now : ℕ) (batch : List Doc) :
    (addDocuments now [] mgr = ([], initializeStore mgr) ∧
      storeDocs (initializeStore mgr) = storeDocs mgr ∧
      (initializeStore mgr).documentRegistry = mgr.documentRegistry) ∧
    ((addDocuments now batch mgr).1.length = batch.length) ∧
    (∀ d : String, d ≠ "" →
      getDocumentChunkCount (addDocuments now batch mgr).2 d =
        getDocumentChunkCount mgr d +
          (batch.filter (fun c => c.metadata.documentId = some d)).length) := by
  refine ⟨⟨by simp [addDocuments], initializeStore_storeDocs mgr,
    initializeStore_registry mgr⟩, ?_, ?_⟩
  · by_cases hb : batch.length = 0
    · rw [List.length_eq_zero.mp hb]
      simp [addDocuments]
    · simp only [addDocuments, if_neg hb]
      rw [foldl_addStep_ids_length]
      simp [List.enum_length]
  · intro d hd
    by_cases hb : batch.length = 0
    · rw [List.length_eq_zero.mp hb]
      simp [addDocuments, getDocumentChunkCount, initializeStore_registry]
    · simp only [addDocuments, if_neg hb, getDocumentChunkCount]
      rw [foldl_addStep_count now d hd, initializeStore_registry]
      rw [show (batch.enum : List (ℕ × Doc)) = List.enumFrom 0 batch from rfl,
        length_filter_enumFrom_docId]

/-- Witness for C6 at a concrete batch carrying two chunks of one
document and one unrelated chunk. -/
theorem addDocuments_spec_witness :
    getDocumentChunkCount
      (addDocuments 7 [⟨"a", { documentId := some "d1" }⟩,
        ⟨"b", { documentId := some "d2" }⟩, ⟨"c", { documentId := some "d1" }⟩]
        ⟨some [], []⟩).2 "d1" =
      getDocumentChunkCount ⟨some [], []⟩ "d1" +
        ([⟨"a", { documentId := some "d1" }⟩, ⟨"b", { documentId := some "d2" }⟩,
          (⟨"c", { documentId := some "d1" }⟩ : Doc)].filter
            (fun c => c.metadata.documentId = some "d1")).length :=
  (addDocuments_spec ⟨some [], []⟩ 7 _).2.2 "d1" (by decide)

/-- Counterexample for C6 as frozen: with `d = ""` (a falsy document
id), a batch chunk whose `metadata.documentId` equals `""` is embedded
but never registered, so `getDocumentChunkCount` does not increase by
the number of matching chunks. -/
theorem addDocuments_emptyId_cex :
    getDocumentChunkCount
      (addDocuments 0 [⟨"x", { documentId := some "" }⟩] ⟨some [], []⟩).2 "" = 0 ∧
    getDocumentChunkCount ⟨some [], []⟩ "" = 0 ∧
    ([(⟨"x", { documentId := some "" }⟩ : Doc)].filter
      (fun c => c.metadata.documentId = some "")).length = 1 := by
  refine ⟨rfl, rfl, rfl⟩

/-- Characterization of `deleteDocument` for a non-blank id: `false`
and untouched state when the id has no registered chunks, otherwise
`true` with the rebuilt (full scan capped at 10000, filtered) store and
the id erased from the registry. -/
theorem deleteDocument_eq (rank : String → List Doc → List Doc)
    (mgr : VectorStoreManager) (d : String) (hd : jsTrim d ≠ "") :
    deleteDocument rank mgr d =
      if ((regLookup mgr.documentRegistry d).getD []) = [] then
        .ok (false, initializeStore mgr)
      else
        .ok (true, ⟨some (((rank "" (storeDocs mgr)).take 10000).filter
          (fun doc => doc.metadata.documentId ≠ some d)),
          regErase mgr.documentRegistry d⟩) := by
  simp only [deleteDocument, if_neg hd, initializeStore_registry, initializeStore_storeDocs]
  cases hr : regLookup mgr.documentRegistry d with
  | none => simp
  | some cids =>
    by_cases hc : cids = []
    · subst hc; simp
    · have hlen : ¬ cids.length = 0 := fun hz => hc (List.length_eq_zero.mp hz)
      simp [if_neg hlen, hc]

/-- Claim C1 (amended: quantification restricted to document ids that
are non-blank after trimming, since `deleteDocument` throws a
`VectorStoreError` on a blank id before consulting the registry):
deleting an id that is absent from the registry (or registered with an
empty chunk-id list) returns `false` and leaves registry and store
contents unchanged; deleting a registered id returns `true`, after
which `hasDocument` is `false` and the store holds no chunk whose
`metadata.documentId` equals the id. -/
theorem deleteDocument_spec (rank : String → List Doc → List Doc)
    (mgr : VectorStoreManager) (d : String) (hd : jsTrim d ≠ "") :
    ((regLookup mgr.documentRegistry d).getD [] = [] →
      deleteDocument rank mgr d = .ok (false, initializeStore mgr) ∧
      storeDocs (initializeStore mgr) = storeDocs mgr ∧
      (initializeStore mgr).documentRegistry = mgr.documentRegistry) ∧
    ((regLookup mgr.documentRegistry d).getD [] ≠ [] →
      ∃ mgr' : VectorStoreManager, deleteDocument rank mgr d = .ok (true, mgr') ∧
        hasDocument mgr' d = false ∧
        ∀ c ∈ storeDocs mgr', c.metadata.documentId ≠ some d) := by
  constructor
  · intro h
    refine ⟨?_, initializeStore_storeDocs mgr, initializeStore_registry mgr⟩
    rw [deleteDocument_eq rank mgr d hd, if_pos h]
  · intro h
    rw [deleteDocument_eq rank mgr d hd, if_neg h]
    refine ⟨_, rfl, ?_, ?_⟩
    · simp [hasDocument, regLookup_regErase_self]
    · intro c hcmem
      simp only [storeDocs, Option.getD_some] at hcmem
      have := List.of_mem_filter hcmem
      simpa using this

/-- Witness for C1: deleting an unknown id returns `false`; deleting a
registered id returns `true`, deregisters it and purges its chunks. -/
theorem deleteDocument_spec_witness :
    deleteDocument (fun _ ds => ds) ⟨some [], []⟩ "doc1" =
      .ok (false, initializeStore ⟨some [], []⟩) ∧
    (∃ mgr' : VectorStoreManager,
      deleteDocument (fun _ ds => ds)
        ⟨some [⟨"x", { documentId := some "doc1" }⟩], [("doc1", ["c1"])]⟩ "doc1" =
        .ok (true, mgr') ∧
      hasDocument mgr' "doc1" = false ∧
      ∀ c ∈ storeDocs mgr', c.metadata.documentId ≠ some "doc1") := by
  constructor
  · exact ((deleteDocument_spec (fun _ ds => ds) ⟨some [], []⟩ "doc1"
      (by decide)).1 (by decide)).1
  · exact (deleteDocument_spec (fun _ ds => ds)
      ⟨some [⟨"x", { documentId := some "doc1" }⟩], [("doc1", ["c1"])]⟩ "doc1"
      (by decide)).2 (by decide)

/-- Counterexample for C1 as frozen: the blank id " " is not present in
the (empty) registry, yet `deleteDocument` throws a `VectorStoreError`
instead of returning `false`. -/
theorem deleteDocument_blankId_cex :
    hasDocument ⟨some [], []⟩ " " = false ∧
    deleteDocument (fun _ ds => ds) ⟨some [], []⟩ " " =
      .error "Document ID cannot be empty" := by
  exact ⟨rfl, rfl⟩

/-- Claim C7 (amended: the registered document id and the query must be
non-blank after trimming, since blank arguments throw a
`VectorStoreError` before any search): `searchWithinDocument` performs
one global similarity search for `k*3` candidates, keeps only the
candidates of the target document and truncates to the first `k`;
consequently every returned chunk belongs to the document and at most
`k` chunks are returned. -/
theorem searchWithinDocument_spec (rank : String → List Doc → List Doc)
    (mgr : VectorStoreManager) (documentId query : String) (k : ℕ)
    (hreg : hasDocument mgr documentId = true)
    (hd : jsTrim documentId ≠ "") (hq : jsTrim query ≠ "") (hk : 1 ≤ k) :
    searchWithinDocument rank mgr documentId query k =
      .ok ((((rank query (storeDocs mgr)).take (k * 3)).filter
        (fun c => c.metadata.documentId = some documentId)).take k, initializeStore mgr) ∧
    (∀ c ∈ (((rank query (storeDocs mgr)).take (k * 3)).filter
        (fun c => c.metadata.documentId = some documentId)).take k,
      c.metadata.documentId = some documentId) ∧
    ((((rank query (storeDocs mgr)).take (k * 3)).filter
        (fun c => c.metadata.documentId = some documentId)).take k).length ≤ k := by
  have hregi : hasDocument (initializeStore mgr) documentId = true := by
    simpa [hasDocument, initializeStore_registry] using hreg
  refine ⟨?_, ?_, List.length_take_le _ _⟩
  · simp only [searchWithinDocument, if_neg hd, if_neg hq, initializeStore_storeDocs]
    rw [if_neg (not_not_intro hregi)]
  · intro c hc
    have hc2 := List.take_subset _ _ hc
    have := List.of_mem_filter hc2
    simpa using this

/-- Witness for C7 at a store holding chunks of two documents. -/
theorem searchWithinDocument_spec_witness :
    searchWithinDocument (fun _ ds => ds)
      ⟨some [⟨"x", { documentId := some "doc1" }⟩, ⟨"y", { documentId := some "doc2" }⟩],
        [("doc1", ["c1"]), ("doc2", ["c2"])]⟩ "doc1" "q" 1 =
      .ok ((((fun (_ : String) (ds : List Doc) => ds) "q"
          (storeDocs ⟨some [⟨"x", { documentId := some "doc1" }⟩,
            ⟨"y", { documentId := some "doc2" }⟩],
            [("doc1", ["c1"]), ("doc2", ["c2"])]⟩)).take (1 * 3)).filter
          (fun c => c.metadata.documentId = some "doc1") |>.take 1,
        initializeStore ⟨some [⟨"x", { documentId := some "doc1" }⟩,
          ⟨"y", { documentId := some "doc2" }⟩],
          [("doc1", ["c1"]), ("doc2", ["c2"])]⟩) :=
  (searchWithinDocument_spec (fun _ ds => ds)
    ⟨some [⟨"x", { documentId := some "doc1" }⟩, ⟨"y", { documentId := some "doc2" }⟩],
      [("doc1", ["c1"]), ("doc2", ["c2"])]⟩ "doc1" "q" 1
    rfl (by decide) (by decide) (by decide)).1

/-- Counterexample for C7 as frozen: "doc1" is registered and the query
" " is non-empty, yet `searchWithinDocument` throws a
`VectorStoreError` instead of performing the over-fetch-and-filter
search. -/
theorem searchWithinDocument_blankQuery_cex :
    hasDocument ⟨some [⟨"x", { documentId := some "doc1" }⟩], [("doc1", ["c1"])]⟩
      "doc1" = true ∧
    (" " : String) ≠ "" ∧
    searchWithinDocument (fun _ ds => ds)
      ⟨some [⟨"x", { documentId := some "doc1" }⟩], [("doc1", ["c1"])]⟩ "doc1" " " 1 =
      .error "Query cannot be empty" := by
  refine ⟨rfl, by decide, rfl⟩

/-- Claim C10 (amended: the deletion clause holds provided the store
holds at most 10000 chunks, the hard-coded cap of the full-scan rebuild
in `deleteDocument`; beyond the cap the rebuild can silently drop
chunks, including unregistered ones): a chunk added without a truthy
`documentId` is embedded into the store but never enters the registry,
so the registry-derived views (`hasDocument`, `getDocumentChunkCount`,
`getStoreStats`) never count it, and `deleteDocument` never removes
it. -/
theorem untrackedChunk_invariant :
    (∀ (mgr : VectorStoreManager) (now : ℕ) (batch : List Doc) (c : Doc), c ∈ batch →
      c ∈ storeDocs (addDocuments now batch mgr).2) ∧
    (∀ (mgr : VectorStoreManager) (now : ℕ) (batch : List Doc),
      (∀ c ∈ batch, truthyId c.metadata.documentId = false) →
      (addDocuments now batch mgr).2.documentRegistry = mgr.documentRegistry ∧
      getStoreStats (addDocuments now batch mgr).2 = getStoreStats mgr ∧
      (∀ d, hasDocument (addDocuments now batch mgr).2 d = hasDocument mgr d) ∧
      (∀ d, getDocumentChunkCount (addDocuments now batch mgr).2 d =
        getDocumentChunkCount mgr d)) ∧
    (∀ (mgr : VectorStoreManager) (rank : String → List Doc → List Doc) (d : String)
        (b : Bool) (mgr' : VectorStoreManager) (c : Doc),
      (rank "" (storeDocs mgr)).Perm (storeDocs mgr) →
      (storeDocs mgr).length ≤ 10000 →
      deleteDocument rank mgr d = .ok (b, mgr') →
      c ∈ storeDocs mgr → truthyId c.metadata.documentId = false →
      c ∈ storeDocs mgr') := by
  have hreg : ∀ (mgr : VectorStoreManager) (now : ℕ) (batch : List Doc),
      (∀ c ∈ batch, truthyId c.metadata.documentId = false) →
      (addDocuments now batch mgr).2.documentRegistry = mgr.documentRegistry := by
    intro mgr now batch hall
    by_cases hb : batch.length = 0
    · rw [List.length_eq_zero.mp hb]
      simp [addDocuments, initializeStore_registry]
    · simp only [addDocuments, if_neg hb]
      rw [show (batch.enum : List (ℕ × Doc)) = List.enumFrom 0 batch from rfl]
      rw [foldl_addStep_reg_untracked now _ _ _
        (fun p hp => hall p.2 (snd_mem_of_mem_enumFrom hp)),
        initializeStore_registry]
  refine ⟨?_, ?_, ?_⟩
  · intro mgr now batch c hc
    have hb : ¬ batch.length = 0 := by
      intro hz
      rw [List.length_eq_zero.mp hz] at hc
      simp at hc
    simp only [addDocuments, if_neg hb, storeDocs, Option.getD_some]
    exact List.mem_append_right _ hc
  · intro mgr now batch hall
    have h := hreg mgr now batch hall
    refine ⟨h, ?_, fun d => ?_, fun d => ?_⟩
    · simp [getStoreStats, h]
    · simp [hasDocument, h]
    · simp [getDocumentChunkCount, h]
  · intro mgr rank d b mgr' c hperm hlen hdel hc huntr
    have hd : jsTrim d ≠ "" := by
      intro hblank
      have herr : deleteDocument rank mgr d = .error "Document ID cannot be empty" := by
        simp [deleteDocument, hblank]
      rw [herr] at hdel
      exact Except.noConfusion hdel
    have hne : c.metadata.documentId ≠ some d := by
      cases hdoc : c.metadata.documentId with
      | none => simp
      | some s =>
        rw [hdoc] at huntr
        have hs : s = "" := by
          by_contra hs
          simp [truthyId, hs] at huntr
        subst hs
        intro hcon
        have hde : d = "" := (Option.some.inj hcon).symm
        subst hde
        exact hd (by decide)
    rw [deleteDocument_eq rank mgr d hd] at hdel
    by_cases hre : ((regLookup mgr.documentRegistry d).getD []) = []
    · rw [if_pos hre] at hdel
      have hmgr : mgr' = initializeStore mgr :=
        ((Prod.mk.injEq _ _ _ _).mp (Except.ok.inj hdel)).2.symm
      rw [hmgr, initializeStore_storeDocs]
      exact hc
    · rw [if_neg hre] at hdel
      have hmgr : mgr' = ⟨some (((rank "" (storeDocs mgr)).take 10000).filter
          (fun doc => doc.metadata.documentId ≠ some d)),
          regErase mgr.documentRegistry d⟩ :=
        ((Prod.mk.injEq _ _ _ _).mp (Except.ok.inj hdel)).2.symm
      rw [hmgr]
      refine List.mem_filter.mpr ⟨?_, by simpa using hne⟩
      rw [List.take_of_length_le (le_trans (le_of_eq hperm.length_eq) hlen)]
      exact hperm.mem_iff.mpr hc

/-- Witness for C10: an unregistered chunk survives the deletion of a
registered document in a small store. -/
theorem untrackedChunk_invariant_witness :
    (⟨"orphan", {}⟩ : Doc) ∈ storeDocs (⟨some [⟨"orphan", {}⟩],
      [("d", ["c1"])]⟩ : VectorStoreManager) ∧
    ∀ mgr' : VectorStoreManager,
      deleteDocument (fun _ ds => ds) ⟨some [⟨"orphan", {}⟩], [("d", ["c1"])]⟩ "d" =
        .ok (true, mgr') →
      (⟨"orphan", {}⟩ : Doc) ∈ storeDocs mgr' := by
  refine ⟨by simp [storeDocs], fun mgr' hdel => ?_⟩
  exact untrackedChunk_invariant.2.2 ⟨some [⟨"orphan", {}⟩], [("d", ["c1"])]⟩
    (fun _ ds => ds) "d" true mgr' ⟨"orphan", {}⟩ (List.Perm.refl _) (by decide) hdel
    (by simp [storeDocs]) rfl

/-- Counterexample for C10 as frozen: with 10002 chunks in the store,
the rebuild in `deleteDocument` retrieves only the first 10000 results
of the full scan, so the trailing chunk without a `documentId` — which
`deleteDocument` is claimed never to remove — is silently dropped. -/
theorem deleteDocument_truncation_cex :
    (⟨"orphan", {}⟩ : Doc) ∈ storeDocs
      ⟨some (List.replicate 10000 ⟨"x", { documentId := some "d" }⟩ ++
        [⟨"x", { documentId := some "d" }⟩, ⟨"orphan", {}⟩]), [("d", ["c1"])]⟩ ∧
    truthyId (⟨"orphan", {}⟩ : Doc).metadata.documentId = false ∧
    deleteDocument (fun _ ds => ds)
      ⟨some (List.replicate 10000 ⟨"x", { documentId := some "d" }⟩ ++
        [⟨"x", { documentId := some "d" }⟩, ⟨"orphan", {}⟩]), [("d", ["c1"])]⟩ "d" =
      .ok (true, ⟨some [], []⟩) ∧
    (⟨"orphan", {}⟩ : Doc) ∉ storeDocs (⟨some [], []⟩ : VectorStoreManager) := by
  have htake : (List.replicate 10000 (⟨"x", { documentId := some "d" }⟩ : Doc) ++
      ([⟨"x", { documentId := some "d" }⟩, ⟨"orphan", {}⟩] : List Doc)).take 10000 =
      List.replicate 10000 ⟨"x", { documentId := some "d" }⟩ :=
    List.take_left' (List.length_replicate 10000 _)
  have hfil : (List.replicate 10000 (⟨"x", { documentId := some "d" }⟩ : Doc)).filter
      (fun doc => doc.metadata.documentId ≠ some "d") = [] := by
    rw [List.filter_eq_nil]
    intro a ha
    rw [List.eq_of_mem_replicate ha]
    simp
  refine ⟨List.mem_append_right _ (by simp), rfl, ?_, by simp [storeDocs]⟩
  rw [deleteDocument_eq (fun _ ds => ds) _ "d" (by decide), if_neg (by decide)]
  simp only [storeDocs, Option.getD_some]
  rw [htake, hfil]
  rfl

end RagQA
